import Mathlib

/-!
Shallow embedding of the book CRUD service in `routes/books.js`.

The store is the module-level array `books`; each handler is modelled as a
pure function from the current store (plus request data) to a status code,
an optional response body and the new store. Timestamps (`new Date()`) are
modelled by an explicit `now : Nat` argument; JavaScript `undefined` for a
field is modelled by `Option`.
-/

namespace BooksApi

/-- A Book record as built by the POST handler: `id`, `title`, `author`,
`finished`, `createdAt`. `title` and `author` are `Option` because the
handler copies them from the request body without validation, so they can
be absent (`undefined`). -/
structure Book where
  id : Int
  title : Option String
  author : Option String
  finished : Bool
  createdAt : Nat
deriving DecidableEq, Repr

/-- Longest leading run of decimal digits of a character list. -/
def takeDigits : List Char → List Char
  | [] => []
  | c :: cs => if c.isDigit then c :: takeDigits cs else []

/-- Numeric value of a digit list, most significant first. -/
def digitsToNat : List Char → Nat → Nat
  | [], acc => acc
  | c :: cs, acc => digitsToNat cs (acc * 10 + (c.toNat - 48))

/-- ECMAScript StrWhiteSpaceChar: the code points `parseInt` strips from
the front of its argument (WhiteSpace: TAB VT FF SP NBSP BOM and the
Unicode space separators; LineTerminator: LF CR LS PS). -/
def isJsWhitespace (c : Char) : Bool :=
  decide (c.toNat = 0x09 ∨ c.toNat = 0x0A ∨ c.toNat = 0x0B ∨
    c.toNat = 0x0C ∨ c.toNat = 0x0D ∨ c.toNat = 0x20 ∨ c.toNat = 0xA0 ∨
    c.toNat = 0x1680 ∨ (0x2000 ≤ c.toNat ∧ c.toNat ≤ 0x200A) ∨
    c.toNat = 0x2028 ∨ c.toNat = 0x2029 ∨ c.toNat = 0x202F ∨
    c.toNat = 0x205F ∨ c.toNat = 0x3000 ∨ c.toNat = 0xFEFF)

/-- Hexadecimal digit: 0-9, a-f, A-F. -/
def isHexDigit (c : Char) : Bool :=
  c.isDigit || decide (97 ≤ c.toNat ∧ c.toNat ≤ 102) ||
    decide (65 ≤ c.toNat ∧ c.toNat ≤ 70)

/-- Longest leading run of hexadecimal digits of a character list. -/
def takeHexDigits : List Char → List Char
  | [] => []
  | c :: cs => if isHexDigit c then c :: takeHexDigits cs else []

/-- Numeric value of a hexadecimal digit. -/
def hexVal (c : Char) : Nat :=
  if c.isDigit then c.toNat - 48
  else if 97 ≤ c.toNat then c.toNat - 87
  else c.toNat - 55

/-- Numeric value of a hexadecimal digit list, most significant first. -/
def hexToNat : List Char → Nat → Nat
  | [], acc => acc
  | c :: cs, acc => hexToNat cs (acc * 16 + hexVal c)

/-- Radix-10 branch: the longest run of leading decimal digits; `none`
models NaN when the run is empty. -/
def parseDecFrom (sign : Int) (cs : List Char) : Option Int :=
  match takeDigits cs with
  | [] => none
  | ds => some (sign * (digitsToNat ds 0 : Nat))

/-- Radix-16 branch (after a `0x`/`0X` prefix): the longest run of
leading hexadecimal digits; `none` models NaN when the run is empty. -/
def parseHexFrom (sign : Int) (cs : List Char) : Option Int :=
  match takeHexDigits cs with
  | [] => none
  | ds => some (sign * (hexToNat ds 0 : Nat))

/-- After the optional sign: a `0x` or `0X` prefix switches to radix 16
on the remainder, otherwise the digits are read in radix 10. -/
def parseIntAfterSign (sign : Int) (cs : List Char) : Option Int :=
  match cs with
  | c0 :: c1 :: rest =>
    if c0 = '0' ∧ (c1 = 'x' ∨ c1 = 'X') then parseHexFrom sign rest
    else parseDecFrom sign cs
  | _ => parseDecFrom sign cs

/-- Model of JavaScript `parseInt(s)` with no radix argument: leading
whitespace is stripped, one optional sign is read, a `0x`/`0X` prefix
selects radix 16, then the longest run of digits of the selected radix
is converted; trailing characters are ignored; `none` models the NaN
result when that digit run is empty. -/
def parseInt (s : String) : Option Int :=
  match s.data.dropWhile isJsWhitespace with
  | [] => none
  | c :: cs =>
    if c = '-' then parseIntAfterSign (-1) cs
    else if c = '+' then parseIntAfterSign 1 cs
    else parseIntAfterSign 1 (c :: cs)

/-- After the optional sign: the digit run of the selected radix is
empty. -/
def noDigitsFrom (cs : List Char) : Bool :=
  match cs with
  | c0 :: c1 :: rest =>
    if c0 = '0' ∧ (c1 = 'x' ∨ c1 = 'X') then (takeHexDigits rest).isEmpty
    else (takeDigits cs).isEmpty
  | _ => (takeDigits cs).isEmpty

/-- True when the integer part of the parameter is empty: after
stripping leading whitespace and one optional sign, and skipping a
`0x`/`0X` prefix when present, no digit of the selected radix follows —
exactly the case where `parseInt` returns NaN. -/
def noIntegerDigits (s : String) : Bool :=
  match s.data.dropWhile isJsWhitespace with
  | [] => true
  | c :: cs =>
    if c = '-' then noDigitsFrom cs
    else if c = '+' then noDigitsFrom cs
    else noDigitsFrom (c :: cs)

/-- `books.find((book) => book.id === parseInt(req.params.id))`: when
`parseInt` yields NaN the strict comparison is always false, so no book
matches. -/
def findById (books : List Book) (idParam : String) : Option Book :=
  match parseInt idParam with
  | none => none
  | some n => books.find? (fun book => book.id == n)

/-- `router.get('/')`: status 200 with the whole collection. -/
def listBooks (books : List Book) : Nat × List Book :=
  (200, books)

/-- `router.get('/:id')`: 200 with the first matching book, else 404 with
no body. -/
def getBook (books : List Book) (idParam : String) : Nat × Option Book :=
  match findById books idParam with
  | some book => (200, some book)
  | none => (404, none)

/-- Request body of POST: `title`, `author`, `finished`, each possibly
absent. -/
structure PostBody where
  title : Option String
  author : Option String
  finished : Option Bool
deriving DecidableEq, Repr

/-- `router.post('/')`: builds the new book with `id = books.length + 1`,
`finished` defaulted to `false` when absent, `createdAt = now`, pushes it
at the end and answers 201 with the book. Returns
(status, response book, new store). -/
def postBook (books : List Book) (body : PostBody) (now : Nat) :
    Nat × Book × List Book :=
  let book : Book :=
    { id := (books.length : Int) + 1
      title := body.title
      author := body.author
      finished := match body.finished with | some f => f | none => false
      createdAt := now }
  (201, book, books ++ [book])

/-- Request body of PUT: the handler destructures only `title`, `author`
and `finished`; `id` and `createdAt` keys, even when present, are never
read. -/
structure PutBody where
  id : Option Int
  title : Option String
  author : Option String
  finished : Option Bool
  createdAt : Option Nat
deriving DecidableEq, Repr

/-- The `updated` object of the PUT handler: keeps the id and `createdAt`
of the existing book and takes each of `title`, `author`, `finished` from
the body when defined, else from the existing book. -/
def mergeBook (book : Book) (body : PutBody) : Book :=
  { id := book.id
    title := match body.title with | some t => some t | none => book.title
    author := match body.author with | some a => some a | none => book.author
    finished := match body.finished with | some f => f | none => book.finished
    createdAt := book.createdAt }

/-- `router.put('/:id')`: find the book, replace it in place
(`books.splice(books.indexOf(book), 1, updated)`) and answer 204, else
404. Returns (status, new store). -/
def putBook (books : List Book) (idParam : String) (body : PutBody) :
    Nat × List Book :=
  match findById books idParam with
  | some book => (204, books.set (books.indexOf book) (mergeBook book body))
  | none => (404, books)

/-- `router.delete('/:id')`: find the book, remove it
(`books.splice(books.indexOf(book), 1)`) and answer 204, else 404.
Returns (status, new store). -/
def deleteBook (books : List Book) (idParam : String) : Nat × List Book :=
  match findById books idParam with
  | some book => (204, books.eraseIdx (books.indexOf book))
  | none => (404, books)

/-- The book found by `find?` sits at index `findIdx`, and `indexOf` of
that book is exactly `findIdx`: no earlier element can be equal to it,
since equal elements satisfy the same predicate and `find?` returns the
first satisfying element. This identifies the `splice(indexOf(book), ...)`
index of the handlers with the index of the first match. -/
theorem find?_indexOf_findIdx (p : Book → Bool) :
    ∀ (l : List Book) (b : Book), l.find? p = some b →
      l.indexOf b = l.findIdx p ∧ l.get? (l.findIdx p) = some b := by
  intro l
  induction l with
  | nil => intro b h; simp at h
  | cons a t ih =>
    intro b h
    cases hpa : p a with
    | true =>
      rw [List.find?_cons, hpa] at h
      injection h with h
      subst h
      refine ⟨?_, ?_⟩
      · simp [List.indexOf_cons, List.findIdx_cons, hpa]
      · simp [List.findIdx_cons, hpa]
    | false =>
      rw [List.find?_cons, hpa] at h
      have hpb := List.find?_some h
      have hab : (a == b) = false := by
        rcases hba : (a == b) with _ | _
        · rfl
        · have : a = b := eq_of_beq hba
          rw [this, hpb] at hpa
          exact Bool.noConfusion hpa
      obtain ⟨ih1, ih2⟩ := ih b h
      refine ⟨?_, ?_⟩
      · simp [List.indexOf_cons, List.findIdx_cons, hpa, hab, ih1]
      · simpa [List.findIdx_cons, hpa, List.get?_eq_getElem?] using ih2

/-- Characterization of a successful PUT: the store becomes `set` at the
index of the first match. -/
theorem putBook_found (books : List Book) (s : String) (n : Int)
    (body : PutBody) (book : Book) (hp : parseInt s = some n)
    (hf : books.find? (fun b => b.id == n) = some book) :
    putBook books s body =
      (204, books.set (books.findIdx (fun b => b.id == n))
        (mergeBook book body)) := by
  have h := (find?_indexOf_findIdx _ books book hf).1
  simp [putBook, findById, hp, hf, h]

/-- Characterization of a successful DELETE: the store becomes `eraseIdx`
at the index of the first match. -/
theorem deleteBook_found (books : List Book) (s : String) (n : Int)
    (book : Book) (hp : parseInt s = some n)
    (hf : books.find? (fun b => b.id == n) = some book) :
    deleteBook books s =
      (204, books.eraseIdx (books.findIdx (fun b => b.id == n))) := by
  have h := (find?_indexOf_findIdx _ books book hf).1
  simp [deleteBook, findById, hp, hf, h]

/-- Claim C1: for every store state, POST /books returns status 201, the
id field of the returned Book equals the length of the collection before
the insertion plus 1, and the returned Book is appended at the end of the
collection. -/
theorem c1_post_creates_with_next_id (books : List Book) (body : PostBody)
    (now : Nat) :
    (postBook books body now).1 = 201 ∧
    (postBook books body now).2.1.id = (books.length : Int) + 1 ∧
    (postBook books body now).2.2 =
      books ++ [(postBook books body now).2.1] :=
  ⟨rfl, rfl, rfl⟩

/-- Claim C2: for every integer id that no Book in the store has,
GET /books/:id, PUT /books/:id and DELETE /books/:id all return 404 with
no body, and the store is unchanged. -/
theorem c2_absent_id_404 (books : List Book) (s : String) (n : Int)
    (body : PutBody) (hp : parseInt s = some n)
    (habs : ∀ b ∈ books, b.id ≠ n) :
    getBook books s = (404, none) ∧
    putBook books s body = (404, books) ∧
    deleteBook books s = (404, books) := by
  have hf : books.find? (fun b => b.id == n) = none :=
    List.find?_eq_none.mpr (by
      intro b hb
      simp [habs b hb])
  refine ⟨?_, ?_, ?_⟩ <;>
    simp [getBook, putBook, deleteBook, findById, hp, hf]

/-- Witness for C2 at a concrete store and id. -/
theorem c2_absent_id_404_witness :
    getBook [⟨2, some "A", some "B", false, 0⟩] "1" = (404, none) ∧
    putBook [⟨2, some "A", some "B", false, 0⟩] "1"
      ⟨none, some "T", none, none, none⟩ =
      (404, [⟨2, some "A", some "B", false, 0⟩]) ∧
    deleteBook [⟨2, some "A", some "B", false, 0⟩] "1" =
      (404, [⟨2, some "A", some "B", false, 0⟩]) :=
  c2_absent_id_404 [⟨2, some "A", some "B", false, 0⟩] "1" 1
    ⟨none, some "T", none, none, none⟩ (by decide) (by decide)

/-- Claim C4: id uniqueness is not guaranteed: starting from one seed
book, POST a second book (it gets id 2), DELETE id 1, then POST again:
the new book is assigned id 2 while a book with id 2 is already present
in the store (id reuse after delete). -/
theorem c4_id_reuse_after_delete :
    (deleteBook (postBook [⟨1, some "S", some "T", false, 0⟩]
      ⟨some "X", some "Y", none⟩ 1).2.2 "1").1 = 204 ∧
    (postBook (deleteBook (postBook [⟨1, some "S", some "T", false, 0⟩]
      ⟨some "X", some "Y", none⟩ 1).2.2 "1").2
      ⟨some "Z", some "W", none⟩ 2).1 = 201 ∧
    (postBook (deleteBook (postBook [⟨1, some "S", some "T", false, 0⟩]
      ⟨some "X", some "Y", none⟩ 1).2.2 "1").2
      ⟨some "Z", some "W", none⟩ 2).2.1.id = 2 ∧
    ∃ b ∈ (deleteBook (postBook [⟨1, some "S", some "T", false, 0⟩]
      ⟨some "X", some "Y", none⟩ 1).2.2 "1").2, b.id = 2 := by
  decide

/-- Claim C7: POST with `finished` omitted stores (and returns)
`finished = false`; POST with `finished` supplied stores the supplied
value. -/
theorem c7_post_finished_default (books : List Book)
    (title author : Option String) (f : Bool) (now : Nat) :
    (postBook books ⟨title, author, none⟩ now).2.1.finished = false ∧
    (postBook books ⟨title, author, some f⟩ now).2.1.finished = f :=
  ⟨rfl, rfl⟩

/-- Claim C3: when a book with the given id is present, PUT with a body
supplying only `title` answers 204; the first matching book (which sits
at the index of the first match) gets the new title and keeps its
`author`, `finished`, `createdAt` and `id`; it stays at the same
position and every other book is untouched (the store becomes `set` at
that single index). -/
theorem c3_put_title_only (books : List Book) (s : String) (n : Int)
    (t : String) (book : Book) (hp : parseInt s = some n)
    (hf : books.find? (fun b => b.id == n) = some book) :
    books.get? (books.findIdx (fun b => b.id == n)) = some book ∧
    putBook books s ⟨none, some t, none, none, none⟩ =
      (204, books.set (books.findIdx (fun b => b.id == n))
        { book with title := some t }) := by
  refine ⟨(find?_indexOf_findIdx _ books book hf).2, ?_⟩
  exact putBook_found books s n ⟨none, some t, none, none, none⟩ book hp hf

/-- Witness for C3: a two-book store, updating the title of book 1. -/
theorem c3_put_title_only_witness :
    putBook [⟨1, some "A", some "B", true, 7⟩,
      ⟨2, some "C", some "D", false, 9⟩] "1"
      ⟨none, some "T", none, none, none⟩ =
      (204, [⟨1, some "T", some "B", true, 7⟩,
        ⟨2, some "C", some "D", false, 9⟩]) := by
  have h := c3_put_title_only
    [⟨1, some "A", some "B", true, 7⟩, ⟨2, some "C", some "D", false, 9⟩]
    "1" 1 "T" ⟨1, some "A", some "B", true, 7⟩ (by decide) (by decide)
  rw [h.2]
  decide

/-- Claim C10: a successful PUT replaces the first matching book by the
merge of the body over it, and the merged book keeps the id and
`createdAt` of the existing book whatever the body contains (its `id`
and `createdAt` fields are never read by the handler). -/
theorem c10_put_ignores_id_createdAt (books : List Book) (s : String)
    (n : Int) (body : PutBody) (book : Book) (hp : parseInt s = some n)
    (hf : books.find? (fun b => b.id == n) = some book) :
    putBook books s body =
      (204, books.set (books.findIdx (fun b => b.id == n))
        (mergeBook book body)) ∧
    (mergeBook book body).id = book.id ∧
    (mergeBook book body).createdAt = book.createdAt :=
  ⟨putBook_found books s n body book hp hf, rfl, rfl⟩

/-- Witness for C10: the body supplies id 99 and createdAt 123, yet the
stored book keeps id 1 and createdAt 7. -/
theorem c10_put_ignores_id_createdAt_witness :
    putBook [⟨1, some "A", some "B", false, 7⟩] "1"
      ⟨some 99, some "T", none, none, some 123⟩ =
      (204, [⟨1, some "T", some "B", false, 7⟩]) := by
  have h := c10_put_ignores_id_createdAt [⟨1, some "A", some "B", false, 7⟩]
    "1" 1 ⟨some 99, some "T", none, none, some 123⟩
    ⟨1, some "A", some "B", false, 7⟩ (by decide) (by decide)
  rw [h.1]
  decide

/-- Claim C9: a successful DELETE removes exactly the first book in
collection order whose id matches (the one at the index of the first
match), i.e. the new store is `take i ++ drop (i+1)`; the length drops
by exactly 1 and every later book, duplicates of the id included,
remains. -/
theorem c9_delete_removes_first_match (books : List Book) (s : String)
    (n : Int) (book : Book) (hp : parseInt s = some n)
    (hf : books.find? (fun b => b.id == n) = some book) :
    books.get? (books.findIdx (fun b => b.id == n)) = some book ∧
    deleteBook books s =
      (204, books.take (books.findIdx (fun b => b.id == n)) ++
        books.drop (books.findIdx (fun b => b.id == n) + 1)) ∧
    (deleteBook books s).2.length + 1 = books.length ∧
    ∀ b ∈ books.drop (books.findIdx (fun b => b.id == n) + 1),
      b ∈ (deleteBook books s).2 := by
  have hd := deleteBook_found books s n book hp hf
  have hpb := List.find?_some (p := fun b : Book => b.id == n) hf
  have hlt : books.findIdx (fun b => b.id == n) < books.length :=
    List.findIdx_lt_length_of_exists
      ⟨book, List.mem_of_find?_eq_some hf, hpb⟩
  refine ⟨(find?_indexOf_findIdx _ books book hf).2, ?_, ?_, ?_⟩
  · rw [hd, List.eraseIdx_eq_take_drop_succ]
  · rw [hd]
    simp [List.length_eraseIdx, hlt]
    omega
  · intro b hb
    rw [hd]
    simp only [List.eraseIdx_eq_take_drop_succ]
    exact List.mem_append_right _ hb

/-- Witness for C9: two books share id 1; DELETE removes only the first
and the later duplicate remains. -/
theorem c9_delete_removes_first_match_witness :
    deleteBook [⟨1, some "A", some "B", false, 0⟩,
      ⟨1, some "C", some "D", false, 0⟩] "1" =
      (204, [⟨1, some "C", some "D", false, 0⟩]) := by
  have h := c9_delete_removes_first_match
    [⟨1, some "A", some "B", false, 0⟩, ⟨1, some "C", some "D", false, 0⟩]
    "1" 1 ⟨1, some "A", some "B", false, 0⟩ (by decide) (by decide)
  rw [h.2.1]
  decide

/-- When the predicate holds for exactly one element of the list,
erasing the element found by `find?` (at its `indexOf`, as the DELETE
handler does) leaves a list in which `find?` fails. -/
theorem find?_eraseIdx_of_countP_one (p : Book → Bool) :
    ∀ (l : List Book) (b : Book), l.countP p = 1 → l.find? p = some b →
      (l.eraseIdx (l.indexOf b)).find? p = none := by
  intro l
  induction l with
  | nil => intro b _ h; simp at h
  | cons a t ih =>
    intro b hc hf
    cases hpa : p a with
    | true =>
      rw [List.find?_cons, hpa] at hf
      injection hf with hf
      subst hf
      have hct : t.countP p = 0 := by
        rw [List.countP_cons, hpa] at hc
        simpa using hc
      have hnone : t.find? p = none :=
        List.find?_eq_none.mpr (List.countP_eq_zero.mp hct)
      simpa [List.indexOf_cons, List.eraseIdx_cons_zero] using hnone
    | false =>
      rw [List.find?_cons, hpa] at hf
      have hpb := List.find?_some hf
      have hab : (a == b) = false := by
        refine beq_eq_false_iff_ne.mpr ?_
        intro he
        rw [he, hpb] at hpa
        exact Bool.noConfusion hpa
      have hct : t.countP p = 1 := by
        rw [List.countP_cons, hpa] at hc
        simpa using hc
      have hih := ih b hct hf
      simpa [List.indexOf_cons, hab, List.eraseIdx_cons_succ,
        List.find?_cons, hpa] using hih

/-- Counterexample to C5 as stated: with two books sharing id 2 (a
reachable situation, by C4), DELETE on id 2 returns 204 but the
subsequent GET on id 2 still answers 200 with the remaining duplicate,
not 404. -/
theorem c5_counterexample :
    (deleteBook [⟨2, some "A", some "B", false, 0⟩,
      ⟨2, some "C", some "D", false, 0⟩] "2").1 = 204 ∧
    getBook (deleteBook [⟨2, some "A", some "B", false, 0⟩,
      ⟨2, some "C", some "D", false, 0⟩] "2").2 "2" ≠ (404, none) := by
  decide

/-- Claim C5 (amended): for every store in which exactly one book has
the given id, DELETE on that id returns 204 and an immediately
subsequent GET on the same id returns 404. -/
theorem c5_delete_then_get_404 (books : List Book) (s : String) (n : Int)
    (hp : parseInt s = some n)
    (hc : books.countP (fun b => b.id == n) = 1) :
    (deleteBook books s).1 = 204 ∧
    getBook (deleteBook books s).2 s = (404, none) := by
  have hsome : (books.find? (fun b => b.id == n)).isSome := by
    rw [List.find?_isSome]
    exact List.countP_pos_iff.mp (by omega)
  obtain ⟨book, hf⟩ := Option.isSome_iff_exists.mp hsome
  have hd := deleteBook_found books s n book hp hf
  have hidx := (find?_indexOf_findIdx _ books book hf).1
  have hnone := find?_eraseIdx_of_countP_one _ books book hc hf
  refine ⟨by rw [hd], ?_⟩
  rw [hd]
  rw [hidx] at hnone
  simp [getBook, findById, hp, hnone]

/-- Witness for C5 (amended) at a concrete two-book store with distinct
ids. -/
theorem c5_delete_then_get_404_witness :
    (deleteBook [⟨1, some "A", some "B", false, 0⟩,
      ⟨2, some "C", some "D", false, 0⟩] "1").1 = 204 ∧
    getBook (deleteBook [⟨1, some "A", some "B", false, 0⟩,
      ⟨2, some "C", some "D", false, 0⟩] "1").2 "1" = (404, none) :=
  c5_delete_then_get_404
    [⟨1, some "A", some "B", false, 0⟩, ⟨2, some "C", some "D", false, 0⟩]
    "1" 1 (by decide) (by decide)

/-- Counterexample to C6 as stated: in a store holding one book with
id 2, POST assigns the new book id length + 1 = 2 as well; GET on the
returned id 2 finds the OLD book first, whose fields differ from the
POST response body. -/
theorem c6_counterexample :
    (postBook [⟨2, some "A", some "B", false, 0⟩]
      ⟨some "X", some "Y", none⟩ 5).2.1.id = 2 ∧
    getBook (postBook [⟨2, some "A", some "B", false, 0⟩]
      ⟨some "X", some "Y", none⟩ 5).2.2 "2" ≠
      (200, some (postBook [⟨2, some "A", some "B", false, 0⟩]
        ⟨some "X", some "Y", none⟩ 5).2.1) := by
  decide

/-- Claim C6 (amended): for every store in which no existing book
already has id length + 1, POST then GET on the id returned by the POST
answers 200 with exactly the POST response book (same title, author,
finished, id and createdAt). -/
theorem c6_post_then_get_roundtrip (books : List Book) (body : PostBody)
    (now : Nat) (s : String)
    (hp : parseInt s = some ((books.length : Int) + 1))
    (hid : ∀ b ∈ books, b.id ≠ (books.length : Int) + 1) :
    getBook (postBook books body now).2.2 s =
      (200, some (postBook books body now).2.1) := by
  have hnone :
      books.find? (fun b => b.id == ((books.length : Int) + 1)) = none :=
    List.find?_eq_none.mpr (by
      intro b hb
      simp [hid b hb])
  simp [getBook, findById, hp, postBook, List.find?_append, hnone,
    List.find?_cons]

/-- Witness for C6 (amended): POST into the empty store, then GET id 1. -/
theorem c6_post_then_get_roundtrip_witness :
    getBook (postBook [] ⟨some "X", some "Y", none⟩ 3).2.2 "1" =
      (200, some ⟨1, some "X", some "Y", false, 3⟩) := by
  have h := c6_post_then_get_roundtrip [] ⟨some "X", some "Y", none⟩ 3 "1"
    (by decide) (by simp)
  rw [h]
  decide

/-- The leading digit run of an all-digit list followed by a non-digit
(or by nothing) is exactly the all-digit list. -/
theorem takeDigits_append (rest : List Char)
    (hrest : rest.head?.all (fun c => ! c.isDigit) = true) :
    ∀ ds : List Char, (∀ c ∈ ds, c.isDigit = true) →
      takeDigits (ds ++ rest) = ds := by
  intro ds
  induction ds with
  | nil =>
    intro _
    cases rest with
    | nil => rfl
    | cons r rs =>
      simp [List.head?_cons, Option.all_some] at hrest
      simp [takeDigits, hrest]
  | cons c cs ih =>
    intro hds
    have hc : c.isDigit = true := hds c (by simp)
    simp [takeDigits, hc, ih (fun x hx => hds x (by simp [hx]))]

/-- A decimal digit has code point between 48 and 57. -/
theorem isDigit_toNat_bounds (c : Char) (h : c.isDigit = true) :
    48 ≤ c.toNat ∧ c.toNat ≤ 57 := by
  unfold Char.isDigit at h
  rw [Bool.and_eq_true] at h
  obtain ⟨h1, h2⟩ := h
  have h1' := of_decide_eq_true h1
  have h2' := of_decide_eq_true h2
  rw [ge_iff_le, UInt32.le_def, BitVec.le_def] at h1'
  rw [UInt32.le_def, BitVec.le_def] at h2'
  exact ⟨h1', h2'⟩

/-- A decimal digit is not one of the whitespace code points parseInt
strips. -/
theorem isJsWhitespace_eq_false_of_isDigit (c : Char)
    (h : c.isDigit = true) : isJsWhitespace c = false := by
  obtain ⟨h1, h2⟩ := isDigit_toNat_bounds c h
  unfold isJsWhitespace
  rw [decide_eq_false_iff_not]
  omega

/-- On a parameter starting with a digit, `parseInt` strips no
whitespace and reads no sign: it goes straight to the radix selection. -/
theorem parseInt_cons_digit (c : Char) (l : List Char)
    (hc : c.isDigit = true) :
    parseInt (String.mk (c :: l)) = parseIntAfterSign 1 (c :: l) := by
  have hws : isJsWhitespace c = false := isJsWhitespace_eq_false_of_isDigit c hc
  have hcm : c ≠ '-' := by
    intro h
    rw [h] at hc
    exact absurd hc (by decide)
  have hcp : c ≠ '+' := by
    intro h
    rw [h] at hc
    exact absurd hc (by decide)
  simp [parseInt, List.dropWhile_cons, hws, hcm, hcp]

/-- After the (absent) sign, a nonempty digit run followed by a
non-digit — the hex-prefix case `0x`/`0X` excluded — is read in radix
10 with the trailing part ignored. -/
theorem parseIntAfterSign_digits (ds rest : List Char) (hne : ds ≠ [])
    (hds : ∀ c ∈ ds, c.isDigit = true)
    (hrest : rest.head?.all (fun c => ! c.isDigit) = true)
    (hnohex : ds = ['0'] →
      rest.head?.all (fun c => (c != 'x') && (c != 'X')) = true) :
    parseIntAfterSign 1 (ds ++ rest) =
      some ((digitsToNat ds 0 : Nat) : Int) := by
  have htd : takeDigits (ds ++ rest) = ds := takeDigits_append rest hrest ds hds
  cases ds with
  | nil => exact absurd rfl hne
  | cons c cs =>
    have hc : c.isDigit = true := hds c (by simp)
    cases cs with
    | nil =>
      cases rest with
      | nil =>
        simp only [List.append_nil] at htd ⊢
        simp [parseIntAfterSign, parseDecFrom, htd]
      | cons r rs =>
        simp only [List.cons_append, List.nil_append] at htd ⊢
        have hcond : ¬(c = '0' ∧ (r = 'x' ∨ r = 'X')) := by
          rintro ⟨hc0, hr⟩
          have hx := hnohex (by rw [hc0])
          simp only [List.head?_cons, Option.all_some, Bool.and_eq_true,
            bne_iff_ne] at hx
          rcases hr with h | h
          · exact hx.1 h
          · exact hx.2 h
        simp [parseIntAfterSign, hcond, parseDecFrom, htd]
    | cons c2 cs2 =>
      have hc2 : c2.isDigit = true := hds c2 (by simp)
      have hcond : ¬(c = '0' ∧ (c2 = 'x' ∨ c2 = 'X')) := by
        rintro ⟨_, hr⟩
        rcases hr with h | h <;> rw [h] at hc2 <;> exact absurd hc2 (by decide)
      simp only [List.cons_append] at htd ⊢
      simp [parseIntAfterSign, hcond, parseDecFrom, htd]

/-- `parseInt` on a nonempty digit run followed by non-digit trailing
characters (hex prefixes excluded): the trailing part is ignored and
the result is the decimal value of the digit run. -/
theorem parseInt_digits (ds rest : List Char) (hne : ds ≠ [])
    (hds : ∀ c ∈ ds, c.isDigit = true)
    (hrest : rest.head?.all (fun c => ! c.isDigit) = true)
    (hnohex : ds = ['0'] →
      rest.head?.all (fun c => (c != 'x') && (c != 'X')) = true) :
    parseInt (String.mk (ds ++ rest)) =
      some ((digitsToNat ds 0 : Nat) : Int) := by
  cases ds with
  | nil => exact absurd rfl hne
  | cons c cs =>
    have hc : c.isDigit = true := hds c (by simp)
    rw [List.cons_append, parseInt_cons_digit c (cs ++ rest) hc,
      ← List.cons_append]
    exact parseIntAfterSign_digits (c :: cs) rest hne hds hrest hnohex

/-- When the digit run of the selected radix is empty, the sign branch
returns NaN. -/
theorem parseIntAfterSign_none (sign : Int) (cs : List Char)
    (h : noDigitsFrom cs = true) : parseIntAfterSign sign cs = none := by
  rcases cs with _ | ⟨c0, _ | ⟨c1, rest⟩⟩
  · simp [parseIntAfterSign, parseDecFrom, takeDigits]
  · simp only [noDigitsFrom, List.isEmpty_iff] at h
    simp [parseIntAfterSign, parseDecFrom, h]
  · by_cases hx : c0 = '0' ∧ (c1 = 'x' ∨ c1 = 'X')
    · simp only [noDigitsFrom, if_pos hx, List.isEmpty_iff] at h
      simp [parseIntAfterSign, hx, parseHexFrom, h]
    · simp only [noDigitsFrom, if_neg hx, List.isEmpty_iff] at h
      simp [parseIntAfterSign, hx, parseDecFrom, h]

/-- A parameter whose integer part is empty parses to NaN. -/
theorem parseInt_none_of_noIntegerDigits (s : String)
    (h : noIntegerDigits s = true) : parseInt s = none := by
  unfold noIntegerDigits at h
  unfold parseInt
  cases hd : s.data.dropWhile isJsWhitespace with
  | nil => simp only [hd]
  | cons c cs =>
    simp only [hd] at h ⊢
    by_cases hm : c = '-'
    · simp only [if_pos hm] at h ⊢
      exact parseIntAfterSign_none _ cs h
    · by_cases hq : c = '+'
      · simp only [if_neg hm, if_pos hq] at h ⊢
        exact parseIntAfterSign_none _ cs h
      · simp only [if_neg hm, if_neg hq] at h ⊢
        exact parseIntAfterSign_none _ (c :: cs) h

/-- Counterexample to C8 as stated: the parameter "0x10" consists of
the digit run "0" followed by non-digit characters, yet the program
parses it in radix 16 as 16 and GET finds the book with id 16 instead
of behaving as the leading integer 0; and the parameter " 1" has no
leading digits, yet after whitespace trimming it parses as 1 and GET
answers 200, not 404. -/
theorem c8_counterexample :
    getBook [⟨16, some "A", some "B", false, 0⟩] "0x10" ≠
      getBook [⟨16, some "A", some "B", false, 0⟩] "0" ∧
    getBook [⟨1, some "A", some "B", false, 0⟩] " 1" ≠ (404, none) := by
  decide

/-- Claim C8 (amended): path-id parsing is parseInt integer-prefix
parsing: a path parameter made of digits followed by non-digit
characters — the hex-prefix case (digit run `0` followed by x or X)
excluded — parses to the leading integer and behaves in GET, PUT and
DELETE exactly as the digit-only parameter; a parameter whose integer
part is empty (after whitespace trimming, an optional sign and an
optional `0x`/`0X` prefix there is no digit) parses to NaN, so GET, PUT
and DELETE always answer 404 and leave the store unchanged. -/
theorem c8_path_id_integer_parsing (books : List Book) (body : PutBody)
    (ds rest : List Char) (hne : ds ≠ [])
    (hds : ∀ c ∈ ds, c.isDigit = true)
    (hrest : rest.head?.all (fun c => ! c.isDigit) = true)
    (hnohex : ds = ['0'] →
      rest.head?.all (fun c => (c != 'x') && (c != 'X')) = true) :
    (parseInt (String.mk (ds ++ rest)) =
        some ((digitsToNat ds 0 : Nat) : Int) ∧
      getBook books (String.mk (ds ++ rest)) =
        getBook books (String.mk ds) ∧
      putBook books (String.mk (ds ++ rest)) body =
        putBook books (String.mk ds) body ∧
      deleteBook books (String.mk (ds ++ rest)) =
        deleteBook books (String.mk ds)) ∧
    ∀ s : String, noIntegerDigits s = true →
      parseInt s = none ∧ getBook books s = (404, none) ∧
      putBook books s body = (404, books) ∧
      deleteBook books s = (404, books) := by
  have hval := parseInt_digits ds rest hne hds hrest hnohex
  have hval2 : parseInt (String.mk ds) =
      some ((digitsToNat ds 0 : Nat) : Int) := by
    have h := parseInt_digits ds [] hne hds (by simp) (fun _ => by simp)
    simpa using h
  have heq : parseInt (String.mk (ds ++ rest)) = parseInt (String.mk ds) := by
    rw [hval, hval2]
  refine ⟨⟨hval, ?_, ?_, ?_⟩, ?_⟩
  · simp [getBook, findById, heq]
  · simp [putBook, findById, heq]
  · simp [deleteBook, findById, heq]
  · intro s hs
    have h0 := parseInt_none_of_noIntegerDigits s hs
    exact ⟨h0, by simp [getBook, findById, h0],
      by simp [putBook, findById, h0],
      by simp [deleteBook, findById, h0]⟩

/-- Witness for C8: the parameter "1abc" behaves as "1" on a one-book
store, and the parameter "abc" yields 404. -/
theorem c8_path_id_integer_parsing_witness :
    getBook [⟨1, some "A", some "B", false, 0⟩]
      (String.mk (['1'] ++ ['a', 'b', 'c'])) =
      getBook [⟨1, some "A", some "B", false, 0⟩] (String.mk ['1']) ∧
    getBook [⟨1, some "A", some "B", false, 0⟩] "abc" = (404, none) := by
  have h := c8_path_id_integer_parsing [⟨1, some "A", some "B", false, 0⟩]
    ⟨none, none, none, none, none⟩ ['1'] ['a', 'b', 'c'] (by decide)
    (by decide) (by decide) (by decide)
  exact ⟨h.1.2.1, (h.2 "abc" (by decide)).2.1⟩

end BooksApi
